import Mathlib

/-! Shallow embedding of the fiber-go client transport core.

The embedding covers, translated from the source:
* the codec `TxToProto` / `ProtoToTx` of client.go (domain transaction to wire
  transaction and back),
* `Connect` of the streaming client (four per-class persistent streams),
* the four transaction-sending operations with their spawned-write / receive
  race, and
* the subscription router loop.

Modelling conventions: Go big.Int values are `Int`, Go uint64/uint32 values are
`Nat` with explicit truncation where the source converts, Go byte slices are
`List Nat`.  Fields whose byte encoding is a minimal big-endian number and whose
length the source never inspects (Value, R, S) are modelled directly as `Nat`;
the recipient field is kept as a byte list because the source branches on its
length.  External go-ethereum functions (sender recovery, transaction hashing,
legacy chain-id derivation) are abstract parameters.  Stream and channel
behaviour of one run is captured by an environment record giving the outcome of
each transport primitive in that run.
-/

namespace Fiber

/-- Byte strings (Go []byte). -/
abbrev Bytes := List Nat

/-- go-ethereum common.Address: a fixed 20-byte value. -/
abbrev Addr := { l : Bytes // l.length = 20 }

/-- The zero address, Go new(common.Address). -/
def zeroAddr : Addr := ⟨List.replicate 20 0, List.length_replicate 20 0⟩

/-- Go big.Int.Uint64 as implemented: the low 64 bits of the absolute value. -/
def uint64OfInt (x : Int) : Nat := x.natAbs % 2 ^ 64

/-- Go uint32(n) conversion on a uint64 value. -/
def uint32OfNat (n : Nat) : Nat := n % 2 ^ 32

/-- Go int64(u) conversion of a uint64 value: two-complement reinterpretation. -/
def int64OfUint64 (n : Nat) : Int := if n < 2 ^ 63 then (n : Int) else (n : Int) - 2 ^ 64

/-- go-ethereum types.LegacyTx as used by the codec. -/
structure LegacyTx where
  nonce : Nat
  gasPrice : Int
  gas : Nat
  toAddr : Option Addr
  value : Int
  data : Bytes
  v : Int
  r : Int
  s : Int
deriving DecidableEq

/-- go-ethereum types.AccessTuple (address, storage keys). -/
structure AccessTuple where
  address : Addr
  storageKeys : List Bytes
deriving DecidableEq

/-- go-ethereum types.AccessListTx as used by the codec. -/
structure AccessListTx where
  chainID : Int
  nonce : Nat
  gasPrice : Int
  gas : Nat
  toAddr : Option Addr
  value : Int
  data : Bytes
  accessList : List AccessTuple
  v : Int
  r : Int
  s : Int
deriving DecidableEq

/-- go-ethereum types.DynamicFeeTx as used by the codec. -/
structure DynamicFeeTx where
  chainID : Int
  nonce : Nat
  gasTipCap : Int
  gasFeeCap : Int
  gas : Nat
  toAddr : Option Addr
  value : Int
  data : Bytes
  accessList : List AccessTuple
  v : Int
  r : Int
  s : Int
deriving DecidableEq

/-- go-ethereum types.Transaction restricted to the three variants the codec
dispatches on (tags 0, 1, 2). -/
inductive Tx where
  | legacy (t : LegacyTx)
  | accessList (t : AccessListTx)
  | dynamicFee (t : DynamicFeeTx)
deriving DecidableEq

/-- types.Transaction.Type: the numeric type tag. -/
def Tx.typeTag : Tx → Nat
  | .legacy _ => 0
  | .accessList _ => 1
  | .dynamicFee _ => 2

/-- types.Transaction.Nonce. -/
def Tx.nonce : Tx → Nat
  | .legacy t => t.nonce
  | .accessList t => t.nonce
  | .dynamicFee t => t.nonce

/-- types.Transaction.Gas. -/
def Tx.gas : Tx → Nat
  | .legacy t => t.gas
  | .accessList t => t.gas
  | .dynamicFee t => t.gas

/-- types.Transaction.To (the Go field name To is a reserved Lean token). -/
def Tx.toAddr : Tx → Option Addr
  | .legacy t => t.toAddr
  | .accessList t => t.toAddr
  | .dynamicFee t => t.toAddr

/-- types.Transaction.Value. -/
def Tx.value : Tx → Int
  | .legacy t => t.value
  | .accessList t => t.value
  | .dynamicFee t => t.value

/-- types.Transaction.Data. -/
def Tx.data : Tx → Bytes
  | .legacy t => t.data
  | .accessList t => t.data
  | .dynamicFee t => t.data

/-- First component of types.Transaction.RawSignatureValues. -/
def Tx.rawV : Tx → Int
  | .legacy t => t.v
  | .accessList t => t.v
  | .dynamicFee t => t.v

/-- Second component of types.Transaction.RawSignatureValues. -/
def Tx.rawR : Tx → Int
  | .legacy t => t.r
  | .accessList t => t.r
  | .dynamicFee t => t.r

/-- Third component of types.Transaction.RawSignatureValues. -/
def Tx.rawS : Tx → Int
  | .legacy t => t.s
  | .accessList t => t.s
  | .dynamicFee t => t.s

/-- types.Transaction.GasPrice: for a dynamic-fee transaction go-ethereum
returns the fee cap. -/
def Tx.gasPrice : Tx → Int
  | .legacy t => t.gasPrice
  | .accessList t => t.gasPrice
  | .dynamicFee t => t.gasFeeCap

/-- types.Transaction.GasFeeCap: for legacy and access-list transactions
go-ethereum returns the gas price. -/
def Tx.gasFeeCap : Tx → Int
  | .legacy t => t.gasPrice
  | .accessList t => t.gasPrice
  | .dynamicFee t => t.gasFeeCap

/-- types.Transaction.GasTipCap: for legacy and access-list transactions
go-ethereum returns the gas price. -/
def Tx.gasTipCap : Tx → Int
  | .legacy t => t.gasPrice
  | .accessList t => t.gasPrice
  | .dynamicFee t => t.gasTipCap

/-- types.Transaction.ChainId.  For a legacy transaction go-ethereum derives
the chain id from the raw V signature value; that derivation is external
go-ethereum code, passed in as the abstract parameter `lcid`. -/
def Tx.chainId (lcid : Int → Int) : Tx → Int
  | .legacy t => lcid t.v
  | .accessList t => t.chainID
  | .dynamicFee t => t.chainID

/-- The chain id field carried by the variant itself: the access-list and
dynamic-fee variants store one, the legacy variant does not. -/
def Tx.variantChainId : Tx → Option Int
  | .legacy _ => none
  | .accessList t => some t.chainID
  | .dynamicFee t => some t.chainID

/-- The protobuf eth.Transaction wire message, with the field set written by
TxToProto and read by ProtoToTx.  The Go field From is named fromAddr here. -/
structure WireTx where
  chainId : Nat
  toBytes : Bytes
  gas : Nat
  gasPrice : Nat
  maxFee : Nat
  priorityFee : Nat
  hash : Bytes
  input : Bytes
  nonce : Nat
  value : Nat
  fromAddr : Addr
  typeTag : Nat
  v : Nat
  r : Nat
  s : Nat
deriving DecidableEq

/-- client.go TxToProto.  `typesSender` is the abstract external composite
types.Sender of a signer built by types.NewLondonSigner for a given chain id;
the source applies it at the constant chain id 1 (common.Big1).  `txHash` is
the abstract external types.Transaction.Hash. -/
def TxToProto {E : Type} (typesSender : Int → Tx → Except E Addr)
    (txHash : Tx → Bytes) (lcid : Int → Int) (tx : Tx) : Except E WireTx :=
  match typesSender 1 tx with
  | .error e => .error e
  | .ok sender =>
    .ok
      { chainId := uint32OfNat (uint64OfInt (tx.chainId lcid))
        toBytes := match tx.toAddr with
          | none => []
          | some a => a.val
        gas := tx.gas
        gasPrice := uint64OfInt tx.gasPrice
        maxFee := uint64OfInt tx.gasFeeCap
        priorityFee := uint64OfInt tx.gasTipCap
        hash := txHash tx
        input := tx.data
        nonce := tx.nonce
        value := tx.value.natAbs
        fromAddr := sender
        typeTag := tx.typeTag
        v := uint64OfInt tx.rawV
        r := tx.rawR.natAbs
        s := tx.rawS.natAbs }

/-- Result of client.go ProtoToTx: the Go function returns a possibly-nil
transaction pointer, and the recipient conversion can panic at run time. -/
inductive DecodeResult where
  | panicked
  | txNil
  | tx (t : Tx)
deriving DecidableEq

/-- The switch on proto.Type inside ProtoToTx, after the recipient pointer
`toA` has been computed. -/
def protoSwitch (p : WireTx) (toA : Addr) : DecodeResult :=
  if p.typeTag = 0 then .tx (.legacy
      { nonce := p.nonce
        gasPrice := int64OfUint64 p.gasPrice
        gas := p.gas
        toAddr := some toA
        value := (p.value : Int)
        data := p.input
        v := int64OfUint64 p.v
        r := (p.r : Int)
        s := (p.s : Int) })
  else if p.typeTag = 1 then .tx (.accessList
      { chainID := (p.chainId : Int)
        nonce := p.nonce
        gasPrice := int64OfUint64 p.gasPrice
        gas := p.gas
        toAddr := some toA
        value := (p.value : Int)
        data := p.input
        accessList := []
        v := int64OfUint64 p.v
        r := (p.r : Int)
        s := (p.s : Int) })
  else if p.typeTag = 2 then .tx (.dynamicFee
      { chainID := (p.chainId : Int)
        nonce := p.nonce
        gasTipCap := int64OfUint64 p.priorityFee
        gasFeeCap := int64OfUint64 p.maxFee
        gas := p.gas
        toAddr := some toA
        value := (p.value : Int)
        data := p.input
        accessList := []
        v := int64OfUint64 p.v
        r := (p.r : Int)
        s := (p.s : Int) })
  else .txNil

/-- client.go ProtoToTx.  The source initialises the recipient pointer to
new(common.Address) (the zero address) and, when the wire field is nonempty,
replaces it by the slice-to-array-pointer conversion (*common.Address)(p.to);
that Go conversion takes the first 20 bytes and panics at run time when the
slice holds between 1 and 19 bytes. -/
def ProtoToTx (p : WireTx) : DecodeResult :=
  if p.toBytes.length = 0 then
    protoSwitch p zeroAddr
  else if h : 20 ≤ p.toBytes.length then
    protoSwitch p ⟨p.toBytes.take 20, by rw [List.length_take]; omega⟩
  else
    .panicked

/-- One run of the streaming client Connect: the outcome of the gRPC dial and
of opening each of the four per-class bidirectional streams, in source order.
`C` is the channel (connection) handle type, `H` the stream handle type. -/
structure ConnEnv (E C H : Type) where
  dial : Except E C
  openTx : Except E H
  openRawTx : Except E H
  openTxSeq : Except E H
  openRawTxSeq : Except E H

/-- The streaming Client aggregate: the connection and the four per-class
persistent stream fields (txStream, rawTxStream, txSeqStream,
rawTxSeqStream).  `none` means the Go field is nil. -/
structure Client (C H : Type) where
  conn : Option C
  txStream : Option H
  rawTxStream : Option H
  txSeqStream : Option H
  rawTxSeqStream : Option H
deriving DecidableEq

/-- NewClient: all handle fields are nil. -/
def NewClient {C H : Type} : Client C H :=
  { conn := none, txStream := none, rawTxStream := none
    txSeqStream := none, rawTxSeqStream := none }

/-- The streaming client Connect.  It dials, stores the connection, then opens
the four streams in order; each Go step `c.xStream, err = open(...)` assigns
the stream field (nil on failure) and returns the error on failure, leaving
every field assigned so far in place.  The result is the final client state
paired with the returned error (none on success). -/
def Connect {E C H : Type} (env : ConnEnv E C H) (c : Client C H) :
    Client C H × Option E :=
  match env.dial with
  | .error e => (c, some e)
  | .ok conn =>
    let c1 : Client C H := { c with conn := some conn }
    match env.openTx with
    | .error e => ({ c1 with txStream := none }, some e)
    | .ok h1 =>
      let c2 := { c1 with txStream := some h1 }
      match env.openRawTx with
      | .error e => ({ c2 with rawTxStream := none }, some e)
      | .ok h2 =>
        let c3 := { c2 with rawTxStream := some h2 }
        match env.openTxSeq with
        | .error e => ({ c3 with txSeqStream := none }, some e)
        | .ok h3 =>
          let c4 := { c3 with txSeqStream := some h3 }
          match env.openRawTxSeq with
          | .error e => ({ c4 with rawTxSeqStream := none }, some e)
          | .ok h4 => ({ c4 with rawTxSeqStream := some h4 }, none)

/-- The protobuf TransactionResponse (hash, timestamp in microseconds). -/
structure TxResponse where
  hash : String
  timestamp : Int
deriving DecidableEq

/-- The protobuf TxSequenceResponse: one TransactionResponse per item. -/
structure TxSequenceResponse where
  sequenceResponse : List TxResponse
deriving DecidableEq

/-- One run of a send operation on its persistent stream.  `sendErr` is the
outcome of the write spawned as a goroutine (some e when the write failed);
`errFirst` tells whether that failure reached the unbuffered error channel
before the single nonblocking select of the receive loop; `recv` is the
outcome of the blocking Recv on the stream. -/
structure CallEnv (E R : Type) where
  sendErr : Option E
  errFirst : Bool
  recv : Except E R

/-- The value the nonblocking `select { case err := <-errc: ... default: }`
observes: the send failure only when it arrived first. -/
def errcReady {E R : Type} (env : CallEnv E R) : Option E :=
  match env.sendErr, env.errFirst with
  | some e, true => some e
  | _, _ => none

/-- The streaming client SendTransaction: encode with TxToProto (wrapping the
error with the converting-to-protobuf message, modelled by `wrapConv`), spawn
the write, then check the error channel once and block on Recv, returning the
response hash and timestamp. -/
def SendTransaction {E : Type} (typesSender : Int → Tx → Except E Addr)
    (txHash : Tx → Bytes) (lcid : Int → Int) (wrapConv : E → E)
    (env : CallEnv E TxResponse) (tx : Tx) : Except E (String × Int) :=
  match TxToProto typesSender txHash lcid tx with
  | .error e => .error (wrapConv e)
  | .ok _ =>
    match errcReady env with
    | some e => .error e
    | none =>
      match env.recv with
      | .error e => .error e
      | .ok res => .ok (res.hash, res.timestamp)

/-- The streaming client SendRawTransaction: no encoding step, then the same
spawned-write / select / Recv shape as SendTransaction. -/
def SendRawTransaction {E : Type} (env : CallEnv E TxResponse)
    (rawTx : Bytes) : Except E (String × Int) :=
  match errcReady env with
  | some e => .error e
  | none =>
    match env.recv with
    | .error e => .error e
    | .ok res => .ok (res.hash, res.timestamp)

/-- Result of a sequence send: an error return, a run-time panic (the source
indexes res.SequenceResponse[0] with no emptiness guard), or the hash list
with the shared timestamp. -/
inductive SeqResult (E : Type) where
  | err (e : E)
  | panicked
  | ok (hashes : List String) (timestamp : Int)
deriving DecidableEq

/-- The encoding loop of SendTransactionSequence: TxToProto on each item,
returning the first error. -/
def encodeSeq {E : Type} (typesSender : Int → Tx → Except E Addr)
    (txHash : Tx → Bytes) (lcid : Int → Int) : List Tx → Except E (List WireTx)
  | [] => .ok []
  | t :: ts =>
    match TxToProto typesSender txHash lcid t with
    | .error e => .error e
    | .ok w =>
      match encodeSeq typesSender txHash lcid ts with
      | .error e => .error e
      | .ok ws => .ok (w :: ws)

/-- The receive tail shared verbatim by SendTransactionSequence and
SendRawTransactionSequence: check the error channel once, Recv, then read
res.SequenceResponse[0].Timestamp (a run-time panic on an empty collection)
and collect the response hashes in order. -/
def seqReceive {E : Type} (env : CallEnv E TxSequenceResponse) : SeqResult E :=
  match errcReady env with
  | some e => .err e
  | none =>
    match env.recv with
    | .error e => .err e
    | .ok res =>
      match res.sequenceResponse with
      | [] => .panicked
      | r0 :: rs => .ok ((r0 :: rs).map TxResponse.hash) r0.timestamp

/-- The streaming client SendTransactionSequence. -/
def SendTransactionSequence {E : Type} (typesSender : Int → Tx → Except E Addr)
    (txHash : Tx → Bytes) (lcid : Int → Int)
    (env : CallEnv E TxSequenceResponse) (transactions : List Tx) : SeqResult E :=
  match encodeSeq typesSender txHash lcid transactions with
  | .error e => .err e
  | .ok _ => seqReceive env

/-- The streaming client SendRawTransactionSequence: the raw byte blobs are
sent as one RawTxSequenceMsg; the receive tail is the same as for
SendTransactionSequence. -/
def SendRawTransactionSequence {E : Type} (env : CallEnv E TxSequenceResponse)
    (rawTransactions : List Bytes) : SeqResult E :=
  seqReceive env

/-- One run of a subscription: the outcome of opening the server stream, the
messages Recv yields in order, and the terminal Recv error (io.EOF on a clean
end of stream). -/
structure SubEnv (E W : Type) where
  openRes : Except E Unit
  msgs : List W
  term : E

/-- An operation performed on the caller-supplied delivery channel. -/
inductive SubOp (M : Type) where
  | push (m : M)
  | closeCh
deriving DecidableEq

/-- Whether a channel operation is the close. -/
def SubOp.isClose {M : Type} : SubOp M → Bool
  | .push _ => false
  | .closeCh => true

/-- How the blocking subscribe call ends: a synchronous error before the loop
(the wrapped stream-open failure), or the terminal Recv error returned after
closing the channel. -/
inductive SubOutcome (E : Type) where
  | openFailed (e : E)
  | ended (e : E)
deriving DecidableEq

/-- The receive loop of a subscription: Recv each message, decode it and push
the result on the delivery channel; on the terminal Recv error close the
channel and return that error. -/
def subLoop {E W M : Type} (decode : W → M) : List W → E → List (SubOp M) × SubOutcome E
  | [], term => ([SubOp.closeCh], .ended term)
  | m :: ms, term =>
    let rest := subLoop decode ms term
    (SubOp.push (decode m) :: rest.1, rest.2)

/-- Modelled from the spec: the subscription router of the streaming client.
The decode functions the streaming client uses (its ProtoToTx over the local
Transaction type, ProtoToHeader, ProtoToBlock, ProtoToBeaconBlock) are not
among the available source files; per the spec each of the four subscription
kinds is a structurally identical instance of one router differing only in
the wire call and the total decode function used, so the router is modelled
once with the decode function as a parameter.  Opening the server stream
either fails, returning the wrapped error synchronously with the delivery
channel untouched, or succeeds, after which the receive loop runs. -/
def subscribeRun {E W M : Type} (decode : W → M) (wrapSub : E → E)
    (env : SubEnv E W) : List (SubOp M) × SubOutcome E :=
  match env.openRes with
  | .error e => ([], .openFailed (wrapSub e))
  | .ok _ => subLoop decode env.msgs env.term

/-! Helper lemmas shared by the claim theorems. -/

/-- Taking the first 20 bytes of an address gives back the whole address. -/
lemma take_addr (a : Addr) : a.val.take 20 = a.val :=
  List.take_of_length_le (le_of_eq a.2)

/-- The uint64 write followed by the int64 read reproduces a nonnegative
big.Int below 2 to the 63. -/
lemma int64_roundtrip {x : Int} (h0 : 0 ≤ x) (h1 : x < 2 ^ 63) :
    int64OfUint64 (uint64OfInt x) = x := by
  unfold int64OfUint64 uint64OfInt
  have habs : (x.natAbs : Int) = x := Int.natAbs_of_nonneg h0
  have h63 : x.natAbs < 2 ^ 63 := by omega
  have h64 : x.natAbs < 2 ^ 64 := by omega
  rw [Nat.mod_eq_of_lt h64, if_pos h63]
  exact habs

/-- The uint32 write followed by the int64 read reproduces a nonnegative
big.Int below 2 to the 32. -/
lemma uint32_roundtrip {x : Int} (h0 : 0 ≤ x) (h1 : x < 2 ^ 32) :
    ((uint32OfNat (uint64OfInt x) : Nat) : Int) = x := by
  unfold uint32OfNat uint64OfInt
  have h32 : x.natAbs < 2 ^ 32 := by omega
  have h64 : x.natAbs < 2 ^ 64 := by omega
  rw [Nat.mod_eq_of_lt h64, Nat.mod_eq_of_lt h32]
  exact Int.natAbs_of_nonneg h0

/-- When the recipient bytes of a wire transaction are exactly the bytes of an
address, ProtoToTx reaches the type switch with that address. -/
lemma protoToTx_of_addr_bytes (p : WireTx) (a : Addr) (h : p.toBytes = a.val) :
    ProtoToTx p = protoSwitch p a := by
  have h20 : p.toBytes.length = 20 := by rw [h]; exact a.2
  unfold ProtoToTx
  rw [if_neg (by omega), dif_pos (by omega)]
  congr 1
  apply Subtype.ext
  simp only [h, take_addr]

/-- Every transaction the type switch yields carries a present recipient,
namely the address computed before the switch. -/
lemma protoSwitch_toAddr (p : WireTx) (toA : Addr) (t : Tx)
    (h : protoSwitch p toA = .tx t) : t.toAddr = some toA := by
  unfold protoSwitch at h
  by_cases h0 : p.typeTag = 0
  · rw [if_pos h0] at h
    cases h
    rfl
  · rw [if_neg h0] at h
    by_cases h1 : p.typeTag = 1
    · rw [if_pos h1] at h
      cases h
      rfl
    · rw [if_neg h1] at h
      by_cases h2 : p.typeTag = 2
      · rw [if_pos h2] at h
        cases h
        rfl
      · rw [if_neg h2] at h
        cases h

/-! Concrete values used to instantiate theorems with hypotheses. -/

/-- A small legacy transaction used as a concrete instantiation point. -/
def txSmall : Tx :=
  Tx.legacy
    { nonce := 0, gasPrice := 0, gas := 0, toAddr := none, value := 0
      data := [], v := 0, r := 0, s := 0 }

/-- A concrete recovery function that always succeeds with the zero address. -/
def senderOkZero : Int → Tx → Except Unit Addr := fun _ _ => .ok zeroAddr

/-- A concrete recovery function that succeeds (with the zero address) exactly
at signer chain id 1. -/
def senderOkOnlyOne : Int → Tx → Except Unit Addr :=
  fun c _ => if c = 1 then .ok zeroAddr else .error ()

/-- A concrete stand-in for the external transaction hash. -/
def hashNil : Tx → Bytes := fun _ => []

/-- A concrete stand-in for the external legacy chain-id derivation. -/
def lcidZero : Int → Int := fun _ => 0

/-! Claim theorems. -/

/-- C5: TxToProto succeeds and produces a wire transaction exactly when sender
recovery succeeds, fails with exactly the signature-recovery error when
recovery fails, and no other input condition makes it fail. -/
theorem txToProto_fails_iff_recovery_fails {E : Type}
    (typesSender : Int → Tx → Except E Addr) (txHash : Tx → Bytes)
    (lcid : Int → Int) (tx : Tx) :
    ((∃ w, TxToProto typesSender txHash lcid tx = .ok w) ↔
      (∃ a, typesSender 1 tx = .ok a)) ∧
    (∀ e : E, TxToProto typesSender txHash lcid tx = .error e ↔
      typesSender 1 tx = .error e) := by
  unfold TxToProto
  cases h : typesSender 1 tx <;> simp

/-- C5 witness: the equivalences instantiated at a concrete transaction and a
recovery function that succeeds with the zero address. -/
theorem txToProto_fails_iff_recovery_fails_witness :
    ((∃ w, TxToProto senderOkZero hashNil lcidZero txSmall = .ok w) ↔
      (∃ a, senderOkZero 1 txSmall = .ok a)) ∧
    (TxToProto senderOkZero hashNil lcidZero txSmall = .error () ↔
      senderOkZero 1 txSmall = .error ()) :=
  ⟨(txToProto_fails_iff_recovery_fails senderOkZero hashNil lcidZero txSmall).1,
   (txToProto_fails_iff_recovery_fails senderOkZero hashNil lcidZero txSmall).2 ()⟩

/-- C9: TxToProto recovers the sender with the signing rule fixed at chain id
1 (common.Big1), independently of the transaction fields: the recovered sender
stored in the wire form is exactly the chain-id-1 recovery result, encoding
succeeds exactly when that recovery succeeds, and any two recovery functions
that agree at chain id 1 give TxToProto identical results, so the rule at
every other chain id (in particular one selected by the transaction's declared
chain id) has no influence. -/
theorem txToProto_fixed_chain_rule {E : Type}
    (typesSender typesSender' : Int → Tx → Except E Addr) (txHash : Tx → Bytes)
    (lcid : Int → Int) (tx : Tx) :
    (∀ w, TxToProto typesSender txHash lcid tx = .ok w →
      typesSender 1 tx = .ok w.fromAddr) ∧
    ((∃ w, TxToProto typesSender txHash lcid tx = .ok w) ↔
      (∃ a, typesSender 1 tx = .ok a)) ∧
    ((∀ t, typesSender 1 t = typesSender' 1 t) →
      TxToProto typesSender txHash lcid tx = TxToProto typesSender' txHash lcid tx) := by
  refine ⟨?_, ?_, ?_⟩
  · intro w hw
    unfold TxToProto at hw
    cases h : typesSender 1 tx with
    | error e => rw [h] at hw; cases hw
    | ok a => rw [h] at hw; cases hw; rfl
  · unfold TxToProto
    cases h : typesSender 1 tx <;> simp
  · intro hagree
    unfold TxToProto
    rw [hagree tx]

/-- C9 witness: the statement instantiated at a concrete transaction and two
concrete recovery functions agreeing at chain id 1, all hypotheses
discharged. -/
theorem txToProto_fixed_chain_rule_witness :
    TxToProto senderOkZero hashNil lcidZero txSmall =
      TxToProto senderOkOnlyOne hashNil lcidZero txSmall :=
  (txToProto_fixed_chain_rule senderOkZero senderOkOnlyOne hashNil lcidZero
    txSmall).2.2 (fun _ => by simp [senderOkZero, senderOkOnlyOne])

/-- A wire transaction with an unrecognized type tag (3) whose recipient field
holds a single byte. -/
def pShortTo : WireTx :=
  { chainId := 0, toBytes := [1], gas := 0, gasPrice := 0, maxFee := 0
    priorityFee := 0, hash := [], input := [], nonce := 0, value := 0
    fromAddr := zeroAddr, typeTag := 3, v := 0, r := 0, s := 0 }

/-- C6 counterexample: a wire transaction whose type tag is 3 (not 0, 1 or 2)
on which ProtoToTx does not yield the nil result but panics, because the
recipient field holds between 1 and 19 bytes and the conversion
(*common.Address)(proto.To), evaluated before the tag switch, panics at run
time on such a slice. -/
theorem protoToTx_unknown_tag_counterexample :
    pShortTo.typeTag = 3 ∧ ProtoToTx pShortTo = .panicked ∧
      ProtoToTx pShortTo ≠ .txNil := by
  refine ⟨rfl, by decide, by decide⟩

/-- C6 (amended): ProtoToTx dispatches on the numeric type tag into exactly
three variants, tag 0 giving a legacy, tag 1 an access-list and tag 2 a
dynamic-fee transaction, and an unrecognized tag yields the nil result rather
than a panic, provided the recipient field is empty or holds at least 20
bytes; when the recipient field holds between 1 and 19 bytes the recipient
conversion panics before the tag is even examined. -/
theorem protoToTx_dispatch (p : WireTx) :
    (p.toBytes.length = 0 ∨ 20 ≤ p.toBytes.length →
      ((p.typeTag = 0 → ∃ t, ProtoToTx p = .tx (.legacy t)) ∧
       (p.typeTag = 1 → ∃ t, ProtoToTx p = .tx (.accessList t)) ∧
       (p.typeTag = 2 → ∃ t, ProtoToTx p = .tx (.dynamicFee t)) ∧
       (3 ≤ p.typeTag → ProtoToTx p = .txNil))) ∧
    (0 < p.toBytes.length → p.toBytes.length < 20 → ProtoToTx p = .panicked) := by
  constructor
  · intro hwf
    obtain ⟨toA, hA⟩ : ∃ toA, ProtoToTx p = protoSwitch p toA := by
      unfold ProtoToTx
      rcases hwf with h0 | h20
      · rw [if_pos h0]
        exact ⟨_, rfl⟩
      · rw [if_neg (by omega), dif_pos h20]
        exact ⟨_, rfl⟩
    rw [hA]
    unfold protoSwitch
    refine ⟨?_, ?_, ?_, ?_⟩ <;> intro ht
    · rw [if_pos ht]
      exact ⟨_, rfl⟩
    · rw [if_neg (by omega), if_pos ht]
      exact ⟨_, rfl⟩
    · rw [if_neg (by omega), if_neg (by omega), if_pos ht]
      exact ⟨_, rfl⟩
    · rw [if_neg (by omega), if_neg (by omega), if_neg (by omega)]
  · intro h1 h2
    unfold ProtoToTx
    rw [if_neg (by omega), dif_neg (by omega)]

/-- C6 witness: the amended dispatch instantiated at two concrete wire
transactions, one with tag 1 and a 20-byte recipient, one with tag 7 and an
empty recipient. -/
theorem protoToTx_dispatch_witness :
    (∃ t, ProtoToTx
      { chainId := 0, toBytes := List.replicate 20 0, gas := 0, gasPrice := 0
        maxFee := 0, priorityFee := 0, hash := [], input := [], nonce := 0
        value := 0, fromAddr := zeroAddr, typeTag := 1, v := 0, r := 0, s := 0 } =
        .tx (.accessList t)) ∧
    ProtoToTx
      { chainId := 0, toBytes := [], gas := 0, gasPrice := 0, maxFee := 0
        priorityFee := 0, hash := [], input := [], nonce := 0, value := 0
        fromAddr := zeroAddr, typeTag := 7, v := 0, r := 0, s := 0 } = .txNil :=
  ⟨((protoToTx_dispatch _).1 (by decide)).2.1 rfl,
   ((protoToTx_dispatch _).1 (by decide)).2.2.2 (by decide)⟩

/-- C8: a wire transaction with an empty recipient field decodes to a
transaction whose recipient is the all-zero address; a decoded transaction
never has an absent recipient; and a contract-creation transaction (absent
recipient) is encoded by TxToProto with an empty recipient field, hence
decodes to a transaction addressed to the zero address rather than to an
absent recipient. -/
theorem protoToTx_empty_recipient_zero {E : Type}
    (typesSender : Int → Tx → Except E Addr) (txHash : Tx → Bytes)
    (lcid : Int → Int) (p : WireTx) (tx : Tx) (w : WireTx) :
    (∀ t, p.toBytes = [] → ProtoToTx p = .tx t → t.toAddr = some zeroAddr) ∧
    (∀ t, ProtoToTx p = .tx t → t.toAddr ≠ none) ∧
    (tx.toAddr = none → TxToProto typesSender txHash lcid tx = .ok w →
      w.toBytes = [] ∧ ∀ t, ProtoToTx w = .tx t → t.toAddr = some zeroAddr) := by
  have hempty : ∀ q : WireTx, ∀ t, q.toBytes = [] → ProtoToTx q = .tx t →
      t.toAddr = some zeroAddr := by
    intro q t h0 ht
    unfold ProtoToTx at ht
    rw [if_pos (by rw [h0]; rfl)] at ht
    exact protoSwitch_toAddr q zeroAddr t ht
  refine ⟨hempty p, ?_, ?_⟩
  · intro t ht
    unfold ProtoToTx at ht
    by_cases h0 : p.toBytes.length = 0
    · rw [if_pos h0] at ht
      rw [protoSwitch_toAddr p zeroAddr t ht]
      simp
    · rw [if_neg h0] at ht
      by_cases h20 : 20 ≤ p.toBytes.length
      · rw [dif_pos h20] at ht
        rw [protoSwitch_toAddr p _ t ht]
        simp
      · rw [dif_neg h20] at ht
        cases ht
  · intro hnone henc
    have hbytes : w.toBytes = [] := by
      unfold TxToProto at henc
      cases h : typesSender 1 tx with
      | error e => rw [h] at henc; cases henc
      | ok a =>
        rw [h] at henc
        cases henc
        simp [hnone]
    exact ⟨hbytes, fun t => hempty w t hbytes⟩

/-- The wire form of txSmall under the concrete stand-ins above. -/
def wSmall : WireTx :=
  { chainId := 0, toBytes := [], gas := 0, gasPrice := 0, maxFee := 0
    priorityFee := 0, hash := [], input := [], nonce := 0, value := 0
    fromAddr := zeroAddr, typeTag := 0, v := 0, r := 0, s := 0 }

/-- What ProtoToTx makes of wSmall: txSmall with the zero address as its
recipient. -/
def txSmallDecoded : Tx :=
  Tx.legacy
    { nonce := 0, gasPrice := 0, gas := 0, toAddr := some zeroAddr, value := 0
      data := [], v := 0, r := 0, s := 0 }

/-- C8 witness: a concrete contract-creation legacy transaction encodes to an
empty recipient field and its decoding carries the zero address. -/
theorem protoToTx_empty_recipient_zero_witness :
    TxToProto senderOkZero hashNil lcidZero txSmall = .ok wSmall ∧
    wSmall.toBytes = [] ∧
    ProtoToTx wSmall = .tx txSmallDecoded ∧
    txSmallDecoded.toAddr = some zeroAddr := by
  have henc : TxToProto senderOkZero hashNil lcidZero txSmall = .ok wSmall := rfl
  have hdec : ProtoToTx wSmall = .tx txSmallDecoded := by decide
  exact ⟨henc, rfl, hdec,
    ((protoToTx_empty_recipient_zero senderOkZero hashNil lcidZero wSmall txSmall
      wSmall).2.2 rfl henc).2 txSmallDecoded hdec⟩

/-- The fields claimed to survive the round trip, stated through the
go-ethereum accessors: type tag, nonce, gas limit, value, recipient, input
payload, signature triple, gas price, fee cap, tip cap, and the chain id
carried by the variant. -/
def reproduces (t t' : Tx) : Prop :=
  t'.typeTag = t.typeTag ∧ t'.nonce = t.nonce ∧ t'.gas = t.gas ∧
  t'.value = t.value ∧ t'.toAddr = t.toAddr ∧ t'.data = t.data ∧
  t'.rawV = t.rawV ∧ t'.rawR = t.rawR ∧ t'.rawS = t.rawS ∧
  t'.gasPrice = t.gasPrice ∧ t'.gasFeeCap = t.gasFeeCap ∧
  t'.gasTipCap = t.gasTipCap ∧ t'.variantChainId = t.variantChainId

/-- The numeric fields of a transaction fit the wire widths the codec uses:
nonnegative big.Int values, V and the gas-price or fee fields below 2 to the
63 (the wire stores a uint64 which decoding reads back through int64), and
the chain id of the variants that carry one below 2 to the 32 (the wire
stores a uint32). -/
def Tx.wireSafe : Tx → Prop
  | .legacy t => 0 ≤ t.value ∧ 0 ≤ t.r ∧ 0 ≤ t.s ∧
      0 ≤ t.v ∧ t.v < 2 ^ 63 ∧ 0 ≤ t.gasPrice ∧ t.gasPrice < 2 ^ 63
  | .accessList t => 0 ≤ t.value ∧ 0 ≤ t.r ∧ 0 ≤ t.s ∧
      0 ≤ t.v ∧ t.v < 2 ^ 63 ∧ 0 ≤ t.gasPrice ∧ t.gasPrice < 2 ^ 63 ∧
      0 ≤ t.chainID ∧ t.chainID < 2 ^ 32
  | .dynamicFee t => 0 ≤ t.value ∧ 0 ≤ t.r ∧ 0 ≤ t.s ∧
      0 ≤ t.v ∧ t.v < 2 ^ 63 ∧
      0 ≤ t.gasFeeCap ∧ t.gasFeeCap < 2 ^ 63 ∧
      0 ≤ t.gasTipCap ∧ t.gasTipCap < 2 ^ 63 ∧
      0 ≤ t.chainID ∧ t.chainID < 2 ^ 32

/-- A concrete contract-creation legacy transaction (absent recipient). -/
def txCreate : Tx :=
  Tx.legacy
    { nonce := 1, gasPrice := 2, gas := 3, toAddr := none, value := 4
      data := [], v := 27, r := 5, s := 6 }

/-- The wire form of txCreate under the concrete stand-ins. -/
def wCreate : WireTx :=
  { chainId := 0, toBytes := [], gas := 3, gasPrice := 2, maxFee := 2
    priorityFee := 2, hash := [], input := [], nonce := 1, value := 4
    fromAddr := zeroAddr, typeTag := 0, v := 27, r := 5, s := 6 }

/-- What ProtoToTx makes of wCreate: the same legacy transaction except that
the recipient is the zero address instead of absent. -/
def txCreateDecoded : Tx :=
  Tx.legacy
    { nonce := 1, gasPrice := 2, gas := 3, toAddr := some zeroAddr, value := 4
      data := [], v := 27, r := 5, s := 6 }

/-- C2 counterexample: a legacy contract-creation transaction whose encoding
succeeds decodes to a transaction whose recipient differs from the original
(the zero address instead of an absent recipient), so the round trip does not
reproduce the recipient exactly on every transaction whose encoding
succeeds. -/
theorem roundTrip_counterexample :
    TxToProto senderOkZero hashNil lcidZero txCreate = .ok wCreate ∧
    ProtoToTx wCreate = .tx txCreateDecoded ∧
    txCreateDecoded.toAddr ≠ txCreate.toAddr :=
  ⟨rfl, by decide, by decide⟩

/-- C2 (amended): for every transaction of the three supported type tags whose
encoding succeeds, whose recipient is present, and whose numeric fields fit
the wire widths (wireSafe: nonnegative values, V and the gas-price or
fee-cap/tip-cap fields below 2 to the 63, the chain id of the variants that
carry one below 2 to the 32), decoding the encoding yields a transaction of
the same variant with exactly the same nonce, gas limit, value, recipient,
input payload and signature triple, the same gas price (legacy and
access-list, and the fee cap a dynamic-fee transaction reports as its gas
price), the same fee-cap/tip-cap pair, and the same carried chain id. -/
theorem roundTrip_reproduces {E : Type} (typesSender : Int → Tx → Except E Addr)
    (txHash : Tx → Bytes) (lcid : Int → Int) (tx : Tx) (w : WireTx) (a : Addr)
    (hto : tx.toAddr = some a) (hsafe : tx.wireSafe)
    (henc : TxToProto typesSender txHash lcid tx = .ok w) :
    ∃ t', ProtoToTx w = .tx t' ∧ reproduces tx t' := by
  cases tx with
  | legacy l =>
    simp only [Tx.toAddr] at hto
    obtain ⟨hval, hr0, hs0, hv0, hv1, hgp0, hgp1⟩ := hsafe
    unfold TxToProto at henc
    cases hsend : typesSender 1 (Tx.legacy l) with
    | error e => rw [hsend] at henc; cases henc
    | ok sender =>
      rw [hsend] at henc
      injection henc with hw
      subst hw
      rw [protoToTx_of_addr_bytes _ a (by simp [Tx.toAddr, hto])]
      refine ⟨Tx.legacy
        { nonce := l.nonce, gasPrice := l.gasPrice, gas := l.gas
          toAddr := some a, value := l.value, data := l.data
          v := l.v, r := l.r, s := l.s }, ?_, ?_⟩
      · simp [protoSwitch, Tx.typeTag, Tx.nonce, Tx.gasPrice, Tx.gas,
          Tx.value, Tx.data, Tx.rawV, Tx.rawR, Tx.rawS,
          int64_roundtrip hgp0 hgp1, int64_roundtrip hv0 hv1,
          Int.natAbs_of_nonneg hval, Int.natAbs_of_nonneg hr0,
          Int.natAbs_of_nonneg hs0]
      · simp [reproduces, Tx.typeTag, Tx.nonce, Tx.gas, Tx.value, Tx.toAddr,
          hto, Tx.data, Tx.rawV, Tx.rawR, Tx.rawS, Tx.gasPrice, Tx.gasFeeCap,
          Tx.gasTipCap, Tx.variantChainId]
  | accessList al =>
    simp only [Tx.toAddr] at hto
    obtain ⟨hval, hr0, hs0, hv0, hv1, hgp0, hgp1, hc0, hc1⟩ := hsafe
    unfold TxToProto at henc
    cases hsend : typesSender 1 (Tx.accessList al) with
    | error e => rw [hsend] at henc; cases henc
    | ok sender =>
      rw [hsend] at henc
      injection henc with hw
      subst hw
      rw [protoToTx_of_addr_bytes _ a (by simp [Tx.toAddr, hto])]
      refine ⟨Tx.accessList
        { chainID := al.chainID, nonce := al.nonce, gasPrice := al.gasPrice
          gas := al.gas, toAddr := some a, value := al.value, data := al.data
          accessList := [], v := al.v, r := al.r, s := al.s }, ?_, ?_⟩
      · simp [protoSwitch, Tx.typeTag, Tx.nonce, Tx.gasPrice, Tx.gas,
          Tx.value, Tx.data, Tx.rawV, Tx.rawR, Tx.rawS, Tx.chainId,
          int64_roundtrip hgp0 hgp1, int64_roundtrip hv0 hv1,
          uint32_roundtrip hc0 hc1, Int.natAbs_of_nonneg hval,
          Int.natAbs_of_nonneg hr0, Int.natAbs_of_nonneg hs0]
      · simp [reproduces, Tx.typeTag, Tx.nonce, Tx.gas, Tx.value, Tx.toAddr,
          hto, Tx.data, Tx.rawV, Tx.rawR, Tx.rawS, Tx.gasPrice, Tx.gasFeeCap,
          Tx.gasTipCap, Tx.variantChainId]
  | dynamicFee d =>
    simp only [Tx.toAddr] at hto
    obtain ⟨hval, hr0, hs0, hv0, hv1, hf0, hf1, ht0, ht1, hc0, hc1⟩ := hsafe
    unfold TxToProto at henc
    cases hsend : typesSender 1 (Tx.dynamicFee d) with
    | error e => rw [hsend] at henc; cases henc
    | ok sender =>
      rw [hsend] at henc
      injection henc with hw
      subst hw
      rw [protoToTx_of_addr_bytes _ a (by simp [Tx.toAddr, hto])]
      refine ⟨Tx.dynamicFee
        { chainID := d.chainID, nonce := d.nonce, gasTipCap := d.gasTipCap
          gasFeeCap := d.gasFeeCap, gas := d.gas, toAddr := some a
          value := d.value, data := d.data, accessList := []
          v := d.v, r := d.r, s := d.s }, ?_, ?_⟩
      · simp [protoSwitch, Tx.typeTag, Tx.nonce, Tx.gas, Tx.value, Tx.data,
          Tx.rawV, Tx.rawR, Tx.rawS, Tx.chainId, Tx.gasFeeCap, Tx.gasTipCap,
          int64_roundtrip hf0 hf1, int64_roundtrip ht0 ht1,
          int64_roundtrip hv0 hv1, uint32_roundtrip hc0 hc1,
          Int.natAbs_of_nonneg hval, Int.natAbs_of_nonneg hr0,
          Int.natAbs_of_nonneg hs0]
      · simp [reproduces, Tx.typeTag, Tx.nonce, Tx.gas, Tx.value, Tx.toAddr,
          hto, Tx.data, Tx.rawV, Tx.rawR, Tx.rawS, Tx.gasPrice, Tx.gasFeeCap,
          Tx.gasTipCap, Tx.variantChainId]

/-- A concrete legacy transaction with a present recipient and small fields. -/
def txRound : Tx :=
  Tx.legacy
    { nonce := 5, gasPrice := 7, gas := 21000, toAddr := some zeroAddr
      value := 9, data := [], v := 27, r := 2, s := 3 }

/-- The wire form of txRound under the concrete stand-ins. -/
def wRound : WireTx :=
  { chainId := 0, toBytes := List.replicate 20 0, gas := 21000, gasPrice := 7
    maxFee := 7, priorityFee := 7, hash := [], input := [], nonce := 5
    value := 9, fromAddr := zeroAddr, typeTag := 0, v := 27, r := 2, s := 3 }

/-- C2 witness: the amended round trip instantiated at txRound, all
hypotheses discharged concretely. -/
theorem roundTrip_reproduces_witness :
    ∃ t', ProtoToTx wRound = .tx t' ∧ reproduces txRound t' :=
  roundTrip_reproduces senderOkZero hashNil lcidZero txRound wRound zeroAddr
    rfl (by simp only [txRound, Tx.wireSafe]; norm_num) rfl

/-- A Connect run in which the dial and the first stream open succeed and the
second stream open fails. -/
def connEnvFail : ConnEnv Nat Unit Unit :=
  { dial := .ok (), openTx := .ok (), openRawTx := .error 7
    openTxSeq := .ok (), openRawTxSeq := .ok () }

/-- C1 counterexample: a run in which one of the four stream opens fails, so
Connect returns an error, yet the stream opened before the failure is still
stored open on the client: a partial subset of the four streams remains
usable. -/
theorem connect_partial_failure_counterexample :
    connEnvFail.openRawTx = .error 7 ∧
    (Connect connEnvFail (NewClient : Client Unit Unit)).2 = some 7 ∧
    (Connect connEnvFail (NewClient : Client Unit Unit)).1.txStream = some () :=
  ⟨rfl, rfl, rfl⟩

/-- C1 (amended): if the dial succeeds and any of the four stream opens fails,
Connect returns an error, but every stream opened before the failure remains
stored (open) on the client: the failed Connect can leave a partial subset of
the four streams in place. -/
theorem connect_error_keeps_earlier_streams {E C H : Type}
    (env : ConnEnv E C H) (c : Client C H) (cn : C)
    (hdial : env.dial = .ok cn)
    (hfail : (∃ e, env.openTx = .error e) ∨ (∃ e, env.openRawTx = .error e) ∨
      (∃ e, env.openTxSeq = .error e) ∨ (∃ e, env.openRawTxSeq = .error e)) :
    (Connect env c).2.isSome ∧
    (∀ h1, env.openTx = .ok h1 → (Connect env c).1.txStream = some h1) ∧
    (∀ h1 h2, env.openTx = .ok h1 → env.openRawTx = .ok h2 →
      (Connect env c).1.rawTxStream = some h2) ∧
    (∀ h1 h2 h3, env.openTx = .ok h1 → env.openRawTx = .ok h2 →
      env.openTxSeq = .ok h3 → (Connect env c).1.txSeqStream = some h3) := by
  unfold Connect
  rw [hdial]
  rcases e1 : env.openTx with e | h1 <;> rcases e2 : env.openRawTx with e | h2 <;>
    rcases e3 : env.openTxSeq with e | h3 <;>
    rcases e4 : env.openRawTxSeq with e | h4 <;>
    simp_all

/-- A Connect run in which the first two stream opens succeed and the third
fails. -/
def connEnvPartial : ConnEnv Nat Unit Unit :=
  { dial := .ok (), openTx := .ok (), openRawTx := .ok ()
    openTxSeq := .error 3, openRawTxSeq := .ok () }

/-- C1 witness: the amended statement instantiated at a concrete run whose
third stream open fails, leaving the first two streams open. -/
theorem connect_error_keeps_earlier_streams_witness :
    (Connect connEnvPartial (NewClient : Client Unit Unit)).2.isSome ∧
    (Connect connEnvPartial (NewClient : Client Unit Unit)).1.txStream = some () ∧
    (Connect connEnvPartial (NewClient : Client Unit Unit)).1.rawTxStream = some () := by
  obtain ⟨hsome, hA, hB, hC⟩ := connect_error_keeps_earlier_streams connEnvPartial
    (NewClient : Client Unit Unit) () rfl (Or.inr (Or.inr (Or.inl ⟨3, rfl⟩)))
  exact ⟨hsome, hA () rfl, hB () () rfl rfl⟩

/-- When the spawned write did not fail (or its error has not arrived), the
nonblocking select sees nothing. -/
lemma errcReady_none {E R : Type} (env : CallEnv E R) (h : env.sendErr = none) :
    errcReady env = none := by
  unfold errcReady
  rw [h]

/-- C3: for a sequence send over either sequence operation, when the items all
encode, the spawned write does not fail and the receive yields a nonempty
response collection with one item per input, the call returns exactly one hash
per input item, in the order of the response items (positionally matching the
inputs), paired with the timestamp of the first item of the decoded
response. -/
theorem sequence_send_hashes_timestamp {E : Type}
    (typesSender : Int → Tx → Except E Addr) (txHash : Tx → Bytes)
    (lcid : Int → Int) (env env2 : CallEnv E TxSequenceResponse)
    (txs : List Tx) (raws : List Bytes) (ws : List WireTx)
    (r0 : TxResponse) (rs : List TxResponse) (q0 : TxResponse)
    (qs : List TxResponse)
    (henc : encodeSeq typesSender txHash lcid txs = .ok ws)
    (hsend : env.sendErr = none)
    (hrecv : env.recv = .ok { sequenceResponse := r0 :: rs })
    (hlen : (r0 :: rs).length = txs.length)
    (hsend2 : env2.sendErr = none)
    (hrecv2 : env2.recv = .ok { sequenceResponse := q0 :: qs })
    (hlen2 : (q0 :: qs).length = raws.length) :
    (SendTransactionSequence typesSender txHash lcid env txs =
        .ok ((r0 :: rs).map TxResponse.hash) r0.timestamp ∧
      ((r0 :: rs).map TxResponse.hash).length = txs.length) ∧
    (SendRawTransactionSequence env2 raws =
        .ok ((q0 :: qs).map TxResponse.hash) q0.timestamp ∧
      ((q0 :: qs).map TxResponse.hash).length = raws.length) := by
  unfold SendTransactionSequence SendRawTransactionSequence seqReceive
  rw [henc, errcReady_none env hsend, errcReady_none env2 hsend2, hrecv, hrecv2]
  refine ⟨⟨rfl, ?_⟩, ⟨rfl, ?_⟩⟩
  · simpa using hlen
  · simpa using hlen2

/-- A sequence-call run with a successful write and a one-item response. -/
def seqEnvOne : CallEnv Unit TxSequenceResponse :=
  { sendErr := none, errFirst := false
    recv := .ok { sequenceResponse := [{ hash := "a", timestamp := 4 }] } }

/-- A sequence-call run with a successful write and a three-item response. -/
def seqEnvThree : CallEnv Unit TxSequenceResponse :=
  { sendErr := none, errFirst := false
    recv := .ok { sequenceResponse :=
      [{ hash := "h1", timestamp := 40 }, { hash := "h2", timestamp := 40 },
       { hash := "h3", timestamp := 40 }] } }

/-- C3 witness: a raw sequence of three byte blobs whose response holds three
hashes sharing one timestamp, and a one-item transaction sequence. -/
theorem sequence_send_hashes_timestamp_witness :
    (SendTransactionSequence senderOkZero hashNil lcidZero seqEnvOne [txSmall] =
      .ok ["a"] 4 ∧ (["a"] : List String).length = [txSmall].length) ∧
    (SendRawTransactionSequence seqEnvThree [[], [0], [1]] =
      .ok ["h1", "h2", "h3"] 40 ∧
      (["h1", "h2", "h3"] : List String).length = [[], [0], ([1] : Bytes)].length) :=
  sequence_send_hashes_timestamp senderOkZero hashNil lcidZero seqEnvOne
    seqEnvThree [txSmall] [[], [0], [1]] [wSmall]
    { hash := "a", timestamp := 4 } []
    { hash := "h1", timestamp := 40 }
    [{ hash := "h2", timestamp := 40 }, { hash := "h3", timestamp := 40 }]
    rfl rfl rfl rfl rfl rfl rfl

/-- C10: both sequence operations read the timestamp at index 0 of the decoded
response collection without an emptiness guard, so a successfully received
response whose item collection is empty makes the call panic (an out-of-bounds
access) instead of returning an error; the result is well-defined only when
the collection holds at least one item. -/
theorem sequence_empty_response_panics {E : Type}
    (typesSender : Int → Tx → Except E Addr) (txHash : Tx → Bytes)
    (lcid : Int → Int) (env env2 : CallEnv E TxSequenceResponse)
    (txs : List Tx) (raws : List Bytes) (ws : List WireTx)
    (henc : encodeSeq typesSender txHash lcid txs = .ok ws)
    (hsend : env.sendErr = none)
    (hrecv : env.recv = .ok { sequenceResponse := [] })
    (hsend2 : env2.sendErr = none)
    (hrecv2 : env2.recv = .ok { sequenceResponse := [] }) :
    (SendTransactionSequence typesSender txHash lcid env txs = .panicked ∧
      ∀ e : E, SendTransactionSequence typesSender txHash lcid env txs ≠ .err e) ∧
    (SendRawTransactionSequence env2 raws = .panicked ∧
      ∀ e : E, SendRawTransactionSequence env2 raws ≠ .err e) := by
  unfold SendTransactionSequence SendRawTransactionSequence seqReceive
  rw [henc, errcReady_none env hsend, errcReady_none env2 hsend2, hrecv, hrecv2]
  exact ⟨⟨rfl, fun e h => by cases h⟩, ⟨rfl, fun e h => by cases h⟩⟩

/-- A sequence-call run with a successful write and an empty response
collection. -/
def seqEnvEmpty : CallEnv Unit TxSequenceResponse :=
  { sendErr := none, errFirst := false
    recv := .ok { sequenceResponse := [] } }

/-- C10 witness: the empty-response panic instantiated at concrete runs. -/
theorem sequence_empty_response_panics_witness :
    SendTransactionSequence senderOkZero hashNil lcidZero seqEnvEmpty [txSmall] =
      .panicked ∧
    SendRawTransactionSequence seqEnvEmpty [] = .panicked :=
  ⟨(sequence_empty_response_panics senderOkZero hashNil lcidZero seqEnvEmpty
      seqEnvEmpty [txSmall] [] [wSmall] rfl rfl rfl rfl rfl).1.1,
   (sequence_empty_response_panics senderOkZero hashNil lcidZero seqEnvEmpty
      seqEnvEmpty [txSmall] [] [wSmall] rfl rfl rfl rfl rfl).2.1⟩

/-- A send-operation run whose spawned write fails but whose error loses the
race: the receive completes first with a success. -/
def raceEnv : CallEnv Nat TxResponse :=
  { sendErr := some 5, errFirst := false
    recv := .ok { hash := "abc", timestamp := 9 } }

/-- C7 counterexample: a run of SendRawTransaction in which the spawned write
fails (sendErr is some 5) but the receive path completes first; the call
returns the receive result and the send error is never surfaced, so the send
error is not surfaced in every interleaving. -/
theorem send_error_lost_counterexample :
    raceEnv.sendErr = some 5 ∧
    SendRawTransaction raceEnv [] = .ok ("abc", 9) :=
  ⟨rfl, rfl⟩

/-- C7 (amended): for each of the four transaction-sending operations, when
the spawned write fails and its error arrives before the single nonblocking
check that precedes the receive, the send error is surfaced as the result of
the call without consulting the receive path at all (the result is the same
whatever the receive would return); in the interleavings where the receive
completes first, the receive outcome is returned instead and the send error is
dropped. -/
theorem send_error_surfaced_when_first {E : Type}
    (typesSender : Int → Tx → Except E Addr) (txHash : Tx → Bytes)
    (lcid : Int → Int) (wrapConv : E → E) (e : E) (tx : Tx) (w : WireTx)
    (rawTx : Bytes) (txs : List Tx) (raws : List Bytes) (ws : List WireTx)
    (henc : TxToProto typesSender txHash lcid tx = .ok w)
    (hencs : encodeSeq typesSender txHash lcid txs = .ok ws) :
    (∀ rc, SendTransaction typesSender txHash lcid wrapConv
      { sendErr := some e, errFirst := true, recv := rc } tx = .error e) ∧
    (∀ rc, SendRawTransaction
      { sendErr := some e, errFirst := true, recv := rc } rawTx = .error e) ∧
    (∀ rc, SendTransactionSequence typesSender txHash lcid
      { sendErr := some e, errFirst := true, recv := rc } txs = .err e) ∧
    (∀ rc, SendRawTransactionSequence
      { sendErr := some e, errFirst := true, recv := rc } raws = .err e) := by
  refine ⟨?_, ?_, ?_, ?_⟩ <;> intro rc
  · unfold SendTransaction
    rw [henc]
    rfl
  · rfl
  · unfold SendTransactionSequence
    rw [hencs]
    rfl
  · rfl

/-- A concrete recovery function over Nat errors, always succeeding. -/
def senderOkNat : Int → Tx → Except Nat Addr := fun _ _ => .ok zeroAddr

/-- C7 witness: the amended statement instantiated, for each of the four
operations, at a concrete run whose write error arrived first. -/
theorem send_error_surfaced_when_first_witness :
    SendTransaction senderOkNat hashNil lcidZero id
      { sendErr := some 5, errFirst := true, recv := .error 4 } txSmall =
      .error 5 ∧
    SendRawTransaction
      { sendErr := some 5, errFirst := true
        recv := (.ok { hash := "h", timestamp := 0 } : Except Nat TxResponse) }
      [] = .error 5 ∧
    SendTransactionSequence senderOkNat hashNil lcidZero
      { sendErr := some 5, errFirst := true, recv := .error 4 } [txSmall] =
      .err 5 ∧
    SendRawTransactionSequence
      { sendErr := some 5, errFirst := true
        recv := (.error 4 : Except Nat TxSequenceResponse) } [] = .err 5 :=
  ⟨(send_error_surfaced_when_first senderOkNat hashNil lcidZero id 5 txSmall
      wSmall [] [txSmall] [] [wSmall] rfl rfl).1 _,
   (send_error_surfaced_when_first senderOkNat hashNil lcidZero id 5 txSmall
      wSmall [] [txSmall] [] [wSmall] rfl rfl).2.1 _,
   (send_error_surfaced_when_first senderOkNat hashNil lcidZero id 5 txSmall
      wSmall [] [txSmall] [] [wSmall] rfl rfl).2.2.1 _,
   (send_error_surfaced_when_first senderOkNat hashNil lcidZero id 5 txSmall
      wSmall [] [txSmall] [] [wSmall] rfl rfl).2.2.2 _⟩

/-- The receive loop pushes one decoded message per received message, in
order, and then closes the channel once, ending with the terminal error. -/
lemma subLoop_shape {E W M : Type} (decode : W → M) (term : E) (ms : List W) :
    subLoop decode ms term =
      ((ms.map fun m => SubOp.push (decode m)) ++ [SubOp.closeCh],
        .ended term) := by
  induction ms with
  | nil => rfl
  | cons m ms ih => simp [subLoop, ih]

/-- Pushes are not closes. -/
lemma countP_isClose_map_push {W M : Type} (decode : W → M) (ms : List W) :
    ((ms.map fun m => SubOp.push (decode m)).countP
      (fun op => SubOp.isClose op)) = 0 := by
  induction ms with
  | nil => rfl
  | cons m ms ih => simp [List.countP_cons, SubOp.isClose, ih]

/-- C4: for the subscription router (every subscription kind instantiates it):
if opening the server stream fails, the blocking call returns the error
synchronously and the delivery channel is neither written nor closed; if
opening succeeds, the channel trace is exactly one push per received message
followed by a single close (so the channel is closed exactly once, is never
written after the close, and the close is the last operation), and the
blocking call returns exactly once with the terminating receive error. -/
theorem subscription_lifecycle {E W M : Type} (decode : W → M)
    (wrapSub : E → E) (env : SubEnv E W) :
    (∀ e, env.openRes = .error e →
      subscribeRun decode wrapSub env = ([], .openFailed (wrapSub e))) ∧
    (∀ u : Unit, env.openRes = .ok u →
      (subscribeRun decode wrapSub env).1 =
        (env.msgs.map fun m => SubOp.push (decode m)) ++ [SubOp.closeCh] ∧
      (subscribeRun decode wrapSub env).2 = .ended env.term ∧
      ((subscribeRun decode wrapSub env).1.countP
        (fun op => SubOp.isClose op)) = 1 ∧
      (subscribeRun decode wrapSub env).1.getLast? = some SubOp.closeCh) := by
  constructor
  · intro e he
    unfold subscribeRun
    rw [he]
  · intro u hu
    unfold subscribeRun
    rw [hu, subLoop_shape]
    refine ⟨rfl, rfl, ?_, ?_⟩
    · simp [List.countP_append, countP_isClose_map_push, List.countP_cons,
        SubOp.isClose]
    · simp

/-- A subscription run that opens and receives two messages before the stream
ends. -/
def subEnvOk : SubEnv Nat Nat := { openRes := .ok (), msgs := [3, 4], term := 0 }

/-- A subscription run whose stream open fails. -/
def subEnvFail : SubEnv Nat Nat := { openRes := .error 9, msgs := [], term := 0 }

/-- C4 witness: the lifecycle instantiated at a failing open (no channel
activity) and at a successful two-message run (two pushes then one close). -/
theorem subscription_lifecycle_witness :
    subscribeRun (fun m : Nat => m + 1) id subEnvFail = ([], .openFailed 9) ∧
    (subscribeRun (fun m : Nat => m + 1) id subEnvOk).1 =
      [SubOp.push 4, SubOp.push 5, SubOp.closeCh] ∧
    ((subscribeRun (fun m : Nat => m + 1) id subEnvOk).1.countP
      (fun op => SubOp.isClose op)) = 1 :=
  ⟨(subscription_lifecycle (fun m : Nat => m + 1) id subEnvFail).1 9 rfl,
   ((subscription_lifecycle (fun m : Nat => m + 1) id subEnvOk).2 () rfl).1,
   ((subscription_lifecycle (fun m : Nat => m + 1) id subEnvOk).2 () rfl).2.2.1⟩

end Fiber
